import Mathlib

/-!
Shallow embedding of the nas-dashboard backend (`app.py` together with the
settings layer of `database.py`), with theorems checking the specification's
claims about authentication, token verification, the access guard, favicon
resolution and icon normalization.

Python strings are modelled as Lean `String`s (byte strings of the HTTP
bodies as `List Nat`).  Stateful database access is modelled by explicit
state passing over an association list for the `settings` table and plain
lists for `groups` and `services`.
-/

namespace NasDashboard

/-! ### Settings store (`database.py`: `get_setting` / `set_setting`) -/

/-- The `settings` table: `key TEXT PRIMARY KEY, value TEXT`.  The primary
key makes keys unique, so a row is a pair and the table an association
list. -/
abbrev Settings := List (String × String)

/-- `Database.get_setting`: `SELECT value FROM settings WHERE key = ?`,
returning `None` when no row matches. -/
def get_setting (st : Settings) (key : String) : Option String :=
  (st.find? (fun p => p.1 == key)).map (fun p => p.2)

/-- `Database.set_setting`: `INSERT OR REPLACE INTO settings`.  With `key`
a primary key this is an upsert: replace the row when present, insert
otherwise. -/
def set_setting (st : Settings) (key value : String) : Settings :=
  if st.any (fun p => p.1 == key) then
    st.map (fun p => if p.1 == key then (key, value) else p)
  else
    st ++ [(key, value)]

/-! ### Token generation and verification (`app.py` lines 24-32) -/

/-- `verify_token`: `stored_token = db.get_setting("access_token");
return stored_token and stored_token == token`.  Python truthiness: the
result is `True` exactly when a stored token exists, is non-empty, and
equals `token`. -/
def verify_token (token : String) (st : Settings) : Bool :=
  match get_setting st "access_token" with
  | none => false
  | some stored => (!(stored == "")) && (stored == token)

/-! ### Rows of the `groups` and `services` tables (`database.py`) -/

/-- A row of `groups`: `id INTEGER PRIMARY KEY AUTOINCREMENT, name,
order_num, is_nas_service`. -/
structure Group where
  id : Nat
  name : String
  order_num : Int
  is_nas_service : Bool
  deriving Repr, DecidableEq

/-- A row of `services`: `id INTEGER PRIMARY KEY AUTOINCREMENT, group_id,
name, url_public, url_local, icon, order_num`. -/
structure Service where
  id : Nat
  group_id : Nat
  name : String
  url_public : String
  url_local : String
  icon : String
  order_num : Int
  deriving Repr, DecidableEq

/-! ### Responses (`jsonify(...)` payloads with their HTTP status codes) -/

/-- The JSON responses the endpoints produce, with their payloads. -/
inductive Resp where
  /-- `{"success": True, "token": token}` (status 200, `authenticate`). -/
  | authSuccess (token : String)
  /-- `{"success": False, "message": "认证失败"}, 401` (`authenticate`). -/
  | authFailure
  /-- `{"error": "Unauthorized"}, 401` (the guard on protected endpoints). -/
  | unauthorized
  /-- `{"success": True}` (status 200). -/
  | ok
  /-- `{"success": True, "group_id"/"service_id": id}` (status 200). -/
  | okId (id : Nat)
  /-- `{"success": True, "icon": icon}` (status 200). -/
  | okIcon (icon : String)
  /-- `{"success": False, "message": msg}, 404` (`fetch_icon` exhausted). -/
  | iconNotFound (msg : String)
  /-- `{"success": False, "message": msg}, 500` (caught exception). -/
  | failure (msg : String)
  /-- A 200 response carrying read-only data (system info), serialized. -/
  | okData (body : String)
  /-- The 200 response of `get_groups`: groups each with their services. -/
  | okGroups (body : List (Group × List Service))
  /-- The 200 response of `get_settings`:
  `{"force_network_mode": value}`. -/
  | okSettings (force_network_mode : String)
  deriving Repr, DecidableEq

/-- The HTTP status code attached to each response. -/
def httpStatus : Resp → Nat
  | .authSuccess _ => 200
  | .authFailure => 401
  | .unauthorized => 401
  | .ok => 200
  | .okId _ => 200
  | .okIcon _ => 200
  | .iconNotFound _ => 404
  | .failure _ => 500
  | .okData _ => 200
  | .okGroups _ => 200
  | .okSettings _ => 200

/-- The `"success"` field of the JSON body, when the body has one. -/
def successField : Resp → Option Bool
  | .authSuccess _ => some true
  | .authFailure => some false
  | .unauthorized => none
  | .ok => some true
  | .okId _ => some true
  | .okIcon _ => some true
  | .iconNotFound _ => some false
  | .failure _ => some false
  | .okData _ => none
  | .okGroups _ => none
  | .okSettings _ => none

/-! ### `authenticate` (`app.py` lines 40-50)

`generate_token()` returns `secrets.token_urlsafe(32)`; the draw from the
CSPRNG is modelled by passing the fresh token `fresh` explicitly.  The
process-configured secret `AUTH_KEY` is likewise a parameter. -/

/-- `authenticate`: compare the submitted `auth_key` with `AUTH_KEY`; on
match generate a token, store it under `"access_token"` and return it;
otherwise reply 401 and leave the store untouched. -/
def authenticate (authKey secret fresh : String) (st : Settings) :
    Resp × Settings :=
  if secret == authKey then
    (.authSuccess fresh, set_setting st "access_token" fresh)
  else
    (.authFailure, st)

/-! ### Store lemmas -/

theorem get_setting_set_self (st : Settings) (k v : String) :
    get_setting (set_setting st k v) k = some v := by
  unfold set_setting
  by_cases h : st.any (fun p => p.1 == k)
  · simp only [h, if_true]
    rw [List.any_eq_true] at h
    obtain ⟨p, hp, hpk⟩ := h
    induction st with
    | nil => cases hp
    | cons q qs ih =>
      unfold get_setting
      by_cases hq : q.1 == k
      · simp [List.find?, hq]
      · cases hp with
        | head => exact absurd hpk (by simpa using hq)
        | tail _ hmem =>
          simp only [List.map_cons, if_neg (by simpa using hq)]
          have := ih hmem
          unfold get_setting at this
          simpa [List.find?, hq] using this
  · simp only [h, if_false]
    rw [List.any_eq_true] at h
    push_neg at h
    induction st with
    | nil => simp [get_setting]
    | cons q qs ih =>
      have hq : ¬(q.1 == k) = true := h q (List.mem_cons_self q qs)
      unfold get_setting
      simp only [List.cons_append, List.find?]
      rw [Bool.not_eq_true] at hq
      simp only [hq]
      have := ih (fun p hp => h p (List.mem_cons_of_mem q hp))
      unfold get_setting at this
      simpa using this

theorem verify_iff (st : Settings) (t : String) :
    verify_token t st = true ↔
      (t ≠ "" ∧ get_setting st "access_token" = some t) := by
  unfold verify_token
  cases hget : get_setting st "access_token" with
  | none => simp
  | some stored =>
    simp only [Bool.and_eq_true, Bool.not_eq_true', beq_eq_false_iff_ne,
      beq_iff_eq, Option.some.injEq]
    constructor
    · rintro ⟨hne, rfl⟩
      exact ⟨hne, rfl⟩
    · rintro ⟨hne, rfl⟩
      exact ⟨hne, rfl⟩

/-- **C2.** `verify` returns true iff the submitted token is non-empty and
equals the stored token under the reserved key `"access_token"`; the empty
token never verifies; at most one token verifies true in any state.
(`verify_token` is a total Lean function, so it never throws.) -/
theorem claim2_verify_token_characterization :
    (∀ (st : Settings) (t : String),
        verify_token t st = true ↔
          (t ≠ "" ∧ get_setting st "access_token" = some t)) ∧
    (∀ st : Settings, verify_token "" st = false) ∧
    (∀ (st : Settings) (t₁ t₂ : String),
        verify_token t₁ st = true → verify_token t₂ st = true → t₁ = t₂) := by
  refine ⟨verify_iff, ?_, ?_⟩
  · intro st
    rw [← Bool.not_eq_true, verify_iff]
    rintro ⟨h, -⟩
    exact h rfl
  · intro st t₁ t₂ h₁ h₂
    rw [verify_iff] at h₁ h₂
    have := h₁.2.symm.trans h₂.2
    exact Option.some_inj.mp this

/-- **C1.** Authenticating with the correct secret stores the fresh token
under `"access_token"` and returns it; that token then verifies true;
after a second successful authentication storing a different token, the
first token verifies false and the second true; authenticating with any
other secret yields the 401 failure response and leaves the settings store
(hence the stored token) unchanged. -/
theorem claim1_authenticate_token_cycle
    (authKey fresh₁ fresh₂ : String) (st : Settings)
    (h₁ : fresh₁ ≠ "") (h₂ : fresh₂ ≠ "") (hne : fresh₁ ≠ fresh₂) :
    (authenticate authKey authKey fresh₁ st).1 = .authSuccess fresh₁ ∧
    get_setting (authenticate authKey authKey fresh₁ st).2 "access_token"
      = some fresh₁ ∧
    verify_token fresh₁ (authenticate authKey authKey fresh₁ st).2 = true ∧
    verify_token fresh₁
      (authenticate authKey authKey fresh₂
        (authenticate authKey authKey fresh₁ st).2).2 = false ∧
    verify_token fresh₂
      (authenticate authKey authKey fresh₂
        (authenticate authKey authKey fresh₁ st).2).2 = true ∧
    (∀ secret, secret ≠ authKey →
      authenticate authKey secret fresh₁ st = (.authFailure, st) ∧
      httpStatus .authFailure = 401) := by
  have hself : (authKey == authKey) = true := beq_self_eq_true authKey
  refine ⟨?_, ?_, ?_, ?_, ?_, ?_⟩
  · simp [authenticate, hself]
  · simp [authenticate, hself, get_setting_set_self]
  · rw [verify_iff]
    exact ⟨h₁, by simp [authenticate, hself, get_setting_set_self]⟩
  · rw [← Bool.not_eq_true, verify_iff]
    rintro ⟨-, hstore⟩
    simp only [authenticate, hself, if_true] at hstore
    rw [get_setting_set_self] at hstore
    exact hne (Option.some_inj.mp hstore).symm
  · rw [verify_iff]
    exact ⟨h₂, by simp [authenticate, hself, get_setting_set_self]⟩
  · intro secret hsec
    refine ⟨?_, rfl⟩
    simp [authenticate, beq_eq_false_iff_ne.mpr hsec]

theorem claim1_authenticate_token_cycle_witness :
    (authenticate "12345" "12345" "tokA" []).1 = .authSuccess "tokA" ∧
    get_setting (authenticate "12345" "12345" "tokA" []).2 "access_token"
      = some "tokA" ∧
    verify_token "tokA" (authenticate "12345" "12345" "tokA" []).2 = true ∧
    verify_token "tokA"
      (authenticate "12345" "12345" "tokB"
        (authenticate "12345" "12345" "tokA" []).2).2 = false ∧
    verify_token "tokB"
      (authenticate "12345" "12345" "tokB"
        (authenticate "12345" "12345" "tokA" []).2).2 = true ∧
    (∀ secret, secret ≠ "12345" →
      authenticate "12345" secret "tokA" [] = (.authFailure, []) ∧
      httpStatus .authFailure = 401) :=
  claim1_authenticate_token_cycle "12345" "tokA" "tokB" []
    (by decide) (by decide) (by decide)

/-! ### Bearer token extraction (`app.py`:
`request.headers.get("Authorization", "").replace("Bearer ", "")`)

Python's `str.replace(old, new)` replaces every non-overlapping occurrence
of `old`, scanning left to right.  It is modelled on character lists with
explicit fuel (each step consumes at least one character, so fuel
`s.length` suffices); the app only ever calls it with the non-empty
pattern `"Bearer "`, and the model covers non-empty patterns. -/

/-- One left-to-right pass replacing every occurrence of `pat` by `rep`. -/
def replaceAllAux (pat rep : List Char) : Nat → List Char → List Char
  | 0, s => s
  | _ + 1, [] => []
  | n + 1, c :: cs =>
    if pat.isPrefixOf (c :: cs) then
      rep ++ replaceAllAux pat rep n ((c :: cs).drop pat.length)
    else
      c :: replaceAllAux pat rep n cs

/-- Python `s.replace(pat, rep)` for a non-empty `pat`. -/
def pyReplace (s pat rep : String) : String :=
  if pat.toList = [] then s
  else (replaceAllAux pat.toList rep.toList s.toList.length s.toList).asString

/-- The guard's token extraction: read the `Authorization` header
(defaulting to `""` when absent) and delete every occurrence of
`"Bearer "`. -/
def extractToken (authHeader : Option String) : String :=
  pyReplace (authHeader.getD "") "Bearer " ""

theorem replaceAllAux_of_no_occurrence (pat rep : List Char) :
    ∀ (n : Nat) (s : List Char), s.length ≤ n → ¬ pat <:+: s →
      replaceAllAux pat rep n s = s := by
  intro n
  induction n with
  | zero => intro s _ _; rfl
  | succ n ih =>
    intro s hlen hninf
    cases s with
    | nil => rfl
    | cons c cs =>
      have hnpre : ¬ pat <+: c :: cs := fun hp =>
        hninf (List.infix_cons_iff.mpr (Or.inl hp))
      have hb : pat.isPrefixOf (c :: cs) = false := by
        rw [← Bool.not_eq_true, List.isPrefixOf_iff_prefix]
        exact hnpre
      have hntail : ¬ pat <:+: cs := fun hp => hninf (List.infix_cons hp)
      simp only [replaceAllAux, hb, Bool.false_eq_true, if_false]
      rw [ih cs (by simpa using Nat.le_of_succ_le_succ hlen) hntail]

theorem replaceAllAux_nil_length_le (pat : List Char) :
    ∀ (n : Nat) (s : List Char),
      (replaceAllAux pat [] n s).length ≤ s.length := by
  intro n
  induction n with
  | zero => intro s; exact Nat.le_refl _
  | succ n ih =>
    intro s
    cases s with
    | nil => exact Nat.le_refl _
    | cons c cs =>
      by_cases hb : pat.isPrefixOf (c :: cs)
      · simp only [replaceAllAux, hb, if_true, List.nil_append]
        exact Nat.le_trans (ih _) (by
          rw [List.length_drop]
          exact Nat.sub_le _ _)
      · simp only [replaceAllAux, hb, Bool.false_eq_true, if_false,
          List.length_cons]
        exact Nat.succ_le_succ (ih cs)

theorem replaceAllAux_nil_length_lt (pat : List Char) (hpat : pat ≠ []) :
    ∀ (n : Nat) (s : List Char), s.length ≤ n → pat <:+: s →
      (replaceAllAux pat [] n s).length < s.length := by
  intro n
  induction n with
  | zero =>
    intro s hlen hinf
    rw [Nat.le_zero, List.length_eq_zero] at hlen
    subst hlen
    exact absurd (List.infix_nil.mp hinf) hpat
  | succ n ih =>
    intro s hlen hinf
    cases s with
    | nil => exact absurd (List.infix_nil.mp hinf) hpat
    | cons c cs =>
      by_cases hb : pat.isPrefixOf (c :: cs)
      · simp only [replaceAllAux, hb, if_true, List.nil_append]
        calc (replaceAllAux pat [] n ((c :: cs).drop pat.length)).length
            ≤ ((c :: cs).drop pat.length).length :=
              replaceAllAux_nil_length_le pat n _
          _ ≤ cs.length := by
              rw [List.length_drop, List.length_cons]
              have hp1 : 1 ≤ pat.length :=
                Nat.succ_le_of_lt (List.length_pos.mpr hpat)
              omega
          _ < (c :: cs).length := by
              rw [List.length_cons]; exact Nat.lt_succ_self _
      · have hp : pat <:+: cs := by
          rcases List.infix_cons_iff.mp hinf with h | h
          · exact absurd (List.isPrefixOf_iff_prefix.mpr h) hb
          · exact h
        simp only [replaceAllAux, hb, Bool.false_eq_true, if_false,
          List.length_cons]
        exact Nat.succ_lt_succ
          (ih cs (by simpa using Nat.le_of_succ_le_succ hlen) hp)

theorem pyReplace_of_no_occurrence (s : String)
    (h : ¬ ("Bearer ".toList <:+: s.toList)) :
    pyReplace s "Bearer " "" = s := by
  unfold pyReplace
  rw [if_neg (by decide)]
  rw [replaceAllAux_of_no_occurrence _ _ _ _ (Nat.le_refl _) h]
  cases s
  rfl

theorem pyReplace_ne_of_occurrence (s : String)
    (h : "Bearer ".toList <:+: s.toList) :
    pyReplace s "Bearer " "" ≠ s := by
  intro heq
  unfold pyReplace at heq
  rw [if_neg (by decide)] at heq
  have hlt := replaceAllAux_nil_length_lt "Bearer ".toList (by decide)
    s.toList.length s.toList (Nat.le_refl _) h
  have : (replaceAllAux "Bearer ".toList [] s.toList.length s.toList) =
      s.toList := by
    have := congrArg String.toList heq
    simpa [List.asString, String.toList] using this
  rw [this] at hlt
  exact Nat.lt_irrefl _ hlt

/-- **C10.** The guard deletes every occurrence of `"Bearer "` anywhere in
the `Authorization` header value rather than stripping a leading prefix:
an absent header yields the empty token; a header equal to a raw
token in which `"Bearer "` never occurs is accepted as that token
(so it verifies exactly as the token itself would); a header such as
`"xBearer y"` loses its inner `"Bearer "` even though it is not a prefix;
and a stored token whose own text contains `"Bearer "` is mangled by the
extraction and fails verification. -/
theorem claim10_bearer_extraction :
    extractToken none = "" ∧
    (∀ t : String, ¬ ("Bearer ".toList <:+: t.toList) →
      extractToken (some t) = t ∧
      (∀ st : Settings,
        verify_token (extractToken (some t)) st = verify_token t st)) ∧
    extractToken (some "xBearer y") = "xy" ∧
    (∀ (t : String) (st : Settings), "Bearer ".toList <:+: t.toList →
      get_setting st "access_token" = some t →
      verify_token (extractToken (some t)) st = false) := by
  refine ⟨rfl, ?_, by decide, ?_⟩
  · intro t hno
    have hext : extractToken (some t) = t := pyReplace_of_no_occurrence t hno
    exact ⟨hext, fun st => by rw [hext]⟩
  · intro t st hocc hstore
    have hne : extractToken (some t) ≠ t := pyReplace_ne_of_occurrence t hocc
    rw [← Bool.not_eq_true, verify_iff]
    rintro ⟨-, h2⟩
    rw [hstore] at h2
    exact hne (Option.some_inj.mp h2).symm

theorem claim10_bearer_extraction_witness :
    extractToken none = "" ∧
    (extractToken (some "tok") = "tok" ∧
      verify_token (extractToken (some "tok")) [("access_token", "tok")] =
        verify_token "tok" [("access_token", "tok")]) ∧
    extractToken (some "xBearer y") = "xy" ∧
    verify_token (extractToken (some "aBearer b"))
      [("access_token", "aBearer b")] = false := by
  obtain ⟨h1, h2, h3, h4⟩ := claim10_bearer_extraction
  refine ⟨h1, ?_, h3, ?_⟩
  · obtain ⟨ha, hb⟩ := h2 "tok" (by decide)
    exact ⟨ha, hb _⟩
  · exact h4 "aBearer b" [("access_token", "aBearer b")] (by decide) (by decide)

/-! ### Base64 (Python `base64.b64encode` / `base64.b64decode`)

Bytes are `Nat`s below 256.  `b64decode` (with `validate=False`, the
app's call) first discards characters outside the alphabet and `'='`,
then fails on incorrect padding — the model decodes groups of four with
padding allowed only in a final group. -/

/-- The standard base64 alphabet. -/
def b64Alphabet : List Char :=
  "ABCDEFGHIJKLMNOPQRSTUVWXYZabcdefghijklmnopqrstuvwxyz0123456789+/".toList

/-- The alphabet character with the given 6-bit value. -/
def b64CharOf (n : Nat) : Char := b64Alphabet.getD n 'A'

/-- The 6-bit value of an alphabet character, `none` for other
characters (`'='` included). -/
def b64ValOf (c : Char) : Option Nat := b64Alphabet.findIdx? (fun d => d == c)

/-- Encode three bytes per group, padding the final group with `'='`. -/
def b64encodeBytes : List Nat → List Char
  | [] => []
  | [a] => [b64CharOf (a / 4), b64CharOf (a % 4 * 16), '=', '=']
  | [a, b] =>
    [b64CharOf (a / 4), b64CharOf (a % 4 * 16 + b / 16),
     b64CharOf (b % 16 * 4), '=']
  | a :: b :: c :: rest =>
    b64CharOf (a / 4) :: b64CharOf (a % 4 * 16 + b / 16) ::
      b64CharOf (b % 16 * 4 + c / 64) :: b64CharOf (c % 64) ::
      b64encodeBytes rest

/-- Python `base64.b64encode(..).decode("utf-8")`. -/
def b64encode (bs : List Nat) : String := (b64encodeBytes bs).asString

/-- Decode successive groups of four alphabet characters; `'='` padding is
accepted only at the end of the last group. -/
def b64DecodeGroups : List Char → Option (List Nat)
  | [] => some []
  | a :: b :: c :: d :: rest =>
    match b64ValOf a, b64ValOf b with
    | some va, some vb =>
      if c = '=' then
        if d = '=' ∧ rest = [] then some [va * 4 + vb / 16] else none
      else
        match b64ValOf c with
        | some vc =>
          if d = '=' then
            if rest = [] then some [va * 4 + vb / 16, vb % 16 * 16 + vc / 4]
            else none
          else
            match b64ValOf d with
            | some vd =>
              (b64DecodeGroups rest).map
                (fun tail => (va * 4 + vb / 16) :: (vb % 16 * 16 + vc / 4) ::
                  (vc % 4 * 64 + vd) :: tail)
            | none => none
        | none => none
    | _, _ => none
  | _ => none

/-- Python `base64.b64decode(s)` with default `validate=False`: discard
characters outside the alphabet and `'='`, then decode; `none` models the
`binascii.Error` raised on incorrect padding. -/
def pyB64Decode (s : String) : Option (List Nat) :=
  b64DecodeGroups
    (s.toList.filter (fun ch => b64Alphabet.contains ch || ch == '='))

/-! ### Favicon resolver (`app.py` lines 201-251, `fetch_icon`) -/

/-- A response to one `requests.get` probe: HTTP status, the
`content-type` header when present, and the body bytes. -/
structure HttpResponse where
  status : Nat
  contentType : Option String
  content : List Nat
  deriving Repr, DecidableEq

/-- The data URI built from an accepted response:
`"data:" + content_type + ";base64," + base64(body)`, with content type
defaulting to `image/x-icon` when the header is absent. -/
def dataUri (r : HttpResponse) : String :=
  "data:" ++ r.contentType.getD "image/x-icon" ++ ";base64," ++
    b64encode r.content

/-- The six candidate URLs, in source order, built from the parsed scheme
and netloc and from the original URL (the sixth concatenates the original
URL as-is). -/
def faviconCandidates (scheme netloc url : String) : List String :=
  let base_url := scheme ++ "://" ++ netloc
  [base_url ++ "/favicon.ico",
   base_url ++ "/favicon.png",
   base_url ++ "/apple-touch-icon.png",
   base_url ++ "/apple-touch-icon-precomposed.png",
   base_url ++ "/static/favicon.ico",
   url ++ "/favicon.ico"]

/-- The per-candidate loop: probe candidates in order; a network error
(`none` from the oracle `net`) or a status other than 200 skips to the
next candidate; the first 200 response is returned as a data URI at
once. -/
def fetchLoop (net : String → Option HttpResponse) :
    List String → Option String
  | [] => none
  | u :: us =>
    match net u with
    | some r => if r.status = 200 then some (dataUri r) else fetchLoop net us
    | none => fetchLoop net us

/-- The body of `fetch_icon` after the guard: parse the URL (a parse
failure is the outer `except`, answered 500), run the candidate loop, and
answer 404 when the loop exhausts all candidates. -/
def fetch_icon_core (parse : String → Option (String × String))
    (net : String → Option HttpResponse) (url : String) : Resp :=
  match parse url with
  | none => .failure "malformed URL"
  | some (scheme, netloc) =>
    match fetchLoop net (faviconCandidates scheme netloc url) with
    | some icon => .okIcon icon
    | none => .iconNotFound "无法获取图标"

theorem fetchLoop_none (net : String → Option HttpResponse)
    (us : List String)
    (h : ∀ v ∈ us, ∀ rv, net v = some rv → rv.status ≠ 200) :
    fetchLoop net us = none := by
  induction us with
  | nil => rfl
  | cons u us ih =>
    have htail := ih (fun v hv => h v (List.mem_cons_of_mem u hv))
    cases hu : net u with
    | none =>
      simp only [fetchLoop, hu]
      exact htail
    | some r =>
      simp only [fetchLoop, hu]
      rw [if_neg (h u (List.mem_cons_self u us) r hu)]
      exact htail

/-- **C6.** The resolver builds exactly these six candidates in this fixed
order; the sixth concatenates the original URL as-is, so a URL ending in
`/` yields a double slash (shown on a concrete input). -/
theorem claim6_candidate_list (scheme netloc url : String) :
    faviconCandidates scheme netloc url =
      [scheme ++ "://" ++ netloc ++ "/favicon.ico",
       scheme ++ "://" ++ netloc ++ "/favicon.png",
       scheme ++ "://" ++ netloc ++ "/apple-touch-icon.png",
       scheme ++ "://" ++ netloc ++ "/apple-touch-icon-precomposed.png",
       scheme ++ "://" ++ netloc ++ "/static/favicon.ico",
       url ++ "/favicon.ico"] ∧
    (faviconCandidates scheme netloc url).length = 6 ∧
    faviconCandidates "http" "example.com" "http://example.com/" =
      ["http://example.com/favicon.ico",
       "http://example.com/favicon.png",
       "http://example.com/apple-touch-icon.png",
       "http://example.com/apple-touch-icon-precomposed.png",
       "http://example.com/static/favicon.ico",
       "http://example.com//favicon.ico"] :=
  ⟨rfl, rfl, rfl⟩

/-- counterexample to C4 as stated: a 2xx response that is not exactly 200
(here 204) is *not* accepted — the loop skips it and exhausts, because the
code tests `status_code == 200`, not membership in the 2xx class. -/
theorem claim4_counterexample_2xx_not_accepted :
    (200 ≤ 204 ∧ 204 < 300) ∧
    fetchLoop (fun _ => some (HttpResponse.mk 204 (some "image/png") [1]))
        ["http://h/favicon.ico"] ≠
      some (dataUri (HttpResponse.mk 204 (some "image/png") [1])) ∧
    fetchLoop (fun _ => some (HttpResponse.mk 204 (some "image/png") [1]))
        ["http://h/favicon.ico"] = none := by
  refine ⟨by decide, ?_, rfl⟩
  intro h
  exact Option.noConfusion h

/-- **C4 (amended: "2xx-equivalent OK" is exactly status 200).** The loop
accepts the first candidate answered with status exactly 200, returns the
data URI built from that response's body and declared content type
(defaulting to `image/x-icon` when absent), and never consults later
candidates — the conclusion holds for every tail `us₂` and whatever `net`
returns on it. -/
theorem claim4_first_200_wins (net : String → Option HttpResponse)
    (us₁ : List String) (u : String) (us₂ : List String) (r : HttpResponse)
    (hfail : ∀ v ∈ us₁, ∀ rv, net v = some rv → rv.status ≠ 200)
    (hu : net u = some r) (hr : r.status = 200) :
    fetchLoop net (us₁ ++ u :: us₂) = some (dataUri r) ∧
    (r.contentType = none →
      dataUri r = "data:image/x-icon;base64," ++ b64encode r.content) := by
  constructor
  · induction us₁ with
    | nil =>
      simp only [List.nil_append, fetchLoop, hu]
      rw [if_pos hr]
    | cons v vs ih =>
      have htail := ih (fun w hw => hfail w (List.mem_cons_of_mem v hw))
      cases hv : net v with
      | none =>
        simp only [List.cons_append, fetchLoop, hv]
        exact htail
      | some rv =>
        simp only [List.cons_append, fetchLoop, hv]
        rw [if_neg (hfail v (List.mem_cons_self v vs) rv hv)]
        exact htail
  · intro hct
    unfold dataUri
    rw [hct]
    rfl

theorem claim4_first_200_wins_witness :
    fetchLoop
        (fun v => if v == "http://h/favicon.png"
          then some (HttpResponse.mk 200 (some "image/png") [104, 105])
          else some (HttpResponse.mk 404 none []))
        (["http://h/favicon.ico"] ++ "http://h/favicon.png" ::
          ["http://h/apple-touch-icon.png"]) =
      some (dataUri (HttpResponse.mk 200 (some "image/png") [104, 105])) ∧
    dataUri (HttpResponse.mk 200 (some "image/png") [104, 105]) =
      "data:image/png;base64,aGk=" :=
  ⟨(claim4_first_200_wins _ _ _ _ _
      (by decide) (by decide) rfl).1,
   by decide⟩

/-- **C5.** When every candidate fails (network error, i.e. `none` from
the oracle, or a non-200 status) the resolver answers the structured
not-found result mapped to 404, distinct from the hard-error result
mapped to 500 that only a failure outside the loop (URL parsing)
produces. -/
theorem claim5_all_fail_not_found
    (parse : String → Option (String × String))
    (net : String → Option HttpResponse) (url scheme netloc : String)
    (hparse : parse url = some (scheme, netloc))
    (hfail : ∀ v ∈ faviconCandidates scheme netloc url, ∀ rv,
      net v = some rv → rv.status ≠ 200) :
    fetch_icon_core parse net url = .iconNotFound "无法获取图标" ∧
    httpStatus (.iconNotFound "无法获取图标") = 404 ∧
    (∀ m, httpStatus (.failure m) = 500) ∧
    (∀ m m', Resp.iconNotFound m ≠ Resp.failure m') ∧
    (∀ badUrl, parse badUrl = none →
      fetch_icon_core parse net badUrl = .failure "malformed URL") := by
  refine ⟨?_, rfl, fun m => rfl, fun m m' h => Resp.noConfusion h, ?_⟩
  · simp only [fetch_icon_core, hparse, fetchLoop_none net _ hfail]
  · intro badUrl hbad
    simp only [fetch_icon_core, hbad]

theorem claim5_all_fail_not_found_witness :
    fetch_icon_core (fun u => if u == "http://h" then some ("http", "h")
        else none)
      (fun _ => none) "http://h" = .iconNotFound "无法获取图标" ∧
    httpStatus (.iconNotFound "无法获取图标") = 404 :=
  ⟨(claim5_all_fail_not_found _ _ "http://h" "http" "h" (by decide)
      (fun _ _ rv h => Option.noConfusion h)).1,
   (claim5_all_fail_not_found (fun u => if u == "http://h"
        then some ("http", "h") else none)
      (fun _ => none) "http://h" "http" "h" (by decide)
      (fun _ _ rv h => Option.noConfusion h)).2.1⟩

/-! ### Icon upload payload extraction (`app.py` lines 266-267)

`if "," in image_data: image_data = image_data.split(",")[1]` — Python's
`split(",")` splits on *every* comma, and `[1]` takes the second piece,
i.e. the text between the first and the second comma. -/

/-- Python `str.split(",")`, accumulator pass over the characters. -/
def splitCommaAux : List Char → List Char → List (List Char)
  | [], acc => [acc.reverse]
  | c :: cs, acc =>
    if c = ',' then acc.reverse :: splitCommaAux cs []
    else splitCommaAux cs (c :: acc)

/-- Python `s.split(",")` on a character list. -/
def pySplitComma (l : List Char) : List (List Char) := splitCommaAux l []

/-- The payload the upload endpoint passes to `base64.b64decode`:
`image_data.split(",")[1]` when a comma occurs, the whole string
otherwise. -/
def extractPayload (s : String) : String :=
  if s.toList.contains ',' then ((pySplitComma s.toList).getD 1 []).asString
  else s

/-- Stated from the claim's words, for comparison: the entire remainder
of the string after its first comma. -/
def afterFirstComma (s : String) : String :=
  ((s.toList.dropWhile (fun c => c != ',')).drop 1).asString

/-- The segment strictly between the first comma and the next comma (or
the end of the string). -/
def middleSegment (s : String) : String :=
  (((s.toList.dropWhile (fun c => c != ',')).drop 1).takeWhile
    (fun c => c != ',')).asString

theorem splitCommaAux_sections (l : List Char) : ∀ acc : List Char,
    splitCommaAux l acc =
      (acc.reverse ++ l.takeWhile (fun c => c != ',')) ::
        (if l.contains ',' then
          pySplitComma ((l.dropWhile (fun c => c != ',')).drop 1)
        else []) := by
  induction l with
  | nil => intro acc; simp [splitCommaAux]
  | cons c cs ih =>
    intro acc
    by_cases hc : c = ','
    · subst hc
      simp [splitCommaAux, pySplitComma, List.takeWhile_cons,
        List.dropWhile_cons]
    · have hb : (c != ',') = true := by
        simpa using hc
      simp only [splitCommaAux, if_neg hc, ih (c :: acc),
        List.takeWhile_cons, List.dropWhile_cons, hb, if_true,
        List.contains_cons]
      have h' : ¬(',' = c) := fun h => hc h.symm
      simp [h']

theorem pySplitComma_getD_one (l : List Char) (hc : l.contains ',' = true) :
    (pySplitComma l).getD 1 [] =
      ((l.dropWhile (fun c => c != ',')).drop 1).takeWhile
        (fun c => c != ',') := by
  unfold pySplitComma
  rw [splitCommaAux_sections l [], if_pos hc]
  rw [show (pySplitComma ((l.dropWhile (fun c => c != ',')).drop 1)) =
      splitCommaAux ((l.dropWhile (fun c => c != ',')).drop 1) [] from rfl]
  rw [splitCommaAux_sections _ []]
  simp [List.getD]

/-- counterexample to C7 as stated: on an input with two commas the code
decodes only the segment between the first and second commas (`"QUFB"`),
not the entire remainder after the first comma (`"QUFB,QkJC"`). -/
theorem claim7_counterexample_two_commas :
    extractPayload "data:image/png;base64,QUFB,QkJC" = "QUFB" ∧
    afterFirstComma "data:image/png;base64,QUFB,QkJC" = "QUFB,QkJC" ∧
    ("QUFB" : String) ≠ "QUFB,QkJC" :=
  ⟨rfl, rfl, by decide⟩

/-- **C7 (amended: the decoded payload is the segment between the first
and second commas — the remainder only when no second comma exists).**
For inputs containing a comma the code decodes `split(",")[1]`, i.e. the
text strictly between the first comma and the following comma or end of
string; inputs without a comma are decoded whole. -/
theorem claim7_payload_extraction (s : String) :
    (s.toList.contains ',' = true → extractPayload s = middleSegment s) ∧
    (s.toList.contains ',' = false → extractPayload s = s) := by
  constructor
  · intro hc
    unfold extractPayload middleSegment
    rw [hc, if_pos rfl, pySplitComma_getD_one s.toList hc]
  · intro hc
    unfold extractPayload
    rw [hc]
    simp

theorem claim7_payload_extraction_witness :
    extractPayload "a,b,c" = middleSegment "a,b,c" ∧
    middleSegment "a,b,c" = "b" ∧
    extractPayload "abc" = "abc" :=
  ⟨(claim7_payload_extraction "a,b,c").1 (by decide), rfl,
   (claim7_payload_extraction "abc").2 (by decide)⟩

/-! ### Icon normalization (`app.py` lines 261-282, `upload_icon` body)

`img.thumbnail((128, 128), Image.Resampling.LANCZOS)` is PIL's shrink-only
bounding resize.  PIL computes with floats; the model uses exact rationals
(`ℚ`) for the aspect-ratio arithmetic.  Mirroring PIL's `thumbnail` with
`size = (128, 128)`: return unchanged when both dimensions already fit,
otherwise scale the larger side to 128 and round the other side to the
nearer of floor/ceil (clamped to at least 1). -/

/-- PIL's inner `round_aspect(number, key)`:
`max(min(floor(number), ceil(number), key=key), 1)` — `min` keeps the
first argument (the floor) on a key tie. -/
def round_aspect (number : ℚ) (key : ℤ → ℚ) : ℤ :=
  max (if key ⌊number⌋ ≤ key ⌈number⌉ then ⌊number⌋ else ⌈number⌉) 1

/-- Output dimensions of `img.thumbnail((128, 128), ...)` for an input of
`w × h` pixels; `aspect = w / h` is inlined. -/
def thumbnailSize (w h : ℕ) : ℕ × ℕ :=
  if 128 ≥ w ∧ 128 ≥ h then (w, h)
  else if (128 : ℚ) / 128 ≥ (w : ℚ) / h then
    ((round_aspect (128 * ((w : ℚ) / h))
      (fun n => |(w : ℚ) / h - (n : ℚ) / 128|)).toNat, 128)
  else
    (128, (round_aspect (128 / ((w : ℚ) / h))
      (fun n => if n = 0 then 0 else |(w : ℚ) / h - 128 / (n : ℚ)|)).toNat)

/-- The body of `upload_icon` after the guard, with the two PIL
operations that touch pixel data abstracted: `imageOpen` models
`Image.open(BytesIO(..))` (returning the dimensions of a recognized
image, `none` for an unrecognized format) and `pngEncode` models
`img.save(buffered, format="PNG")` (the PNG bytes of the resized image,
`none` when saving raises).  Every `none` lands in the `except` branch
returning the 500 failure response. -/
def normalize_icon (imageOpen : List Nat → Option (Nat × Nat))
    (pngEncode : Nat × Nat → Option (List Nat))
    (image_data : String) : Resp :=
  match pyB64Decode (extractPayload image_data) with
  | none => .failure "Invalid base64-encoded string"
  | some bytes =>
    match imageOpen bytes with
    | none => .failure "cannot identify image file"
    | some wh =>
      match pngEncode (thumbnailSize wh.1 wh.2) with
      | none => .failure "image save failed"
      | some out => .okIcon ("data:image/png;base64," ++ b64encode out)

theorem round_aspect_le_of (q : ℚ) (key : ℤ → ℚ) (m : ℤ)
    (h1 : 1 ≤ m) (h2 : q ≤ (m : ℚ)) : round_aspect q key ≤ m := by
  have hcm : ⌈q⌉ ≤ m := Int.ceil_le.mpr h2
  unfold round_aspect
  split
  · exact max_le (le_trans (Int.floor_le_ceil q) hcm) h1
  · exact max_le hcm h1

theorem round_aspect_pos (q : ℚ) (key : ℤ → ℚ) :
    1 ≤ round_aspect q key :=
  le_max_right _ _

theorem round_aspect_near (q : ℚ) (key : ℤ → ℚ) (hq : 0 < q) :
    |((round_aspect q key : ℤ) : ℚ) - q| ≤ 1 := by
  have hceil : 1 ≤ ⌈q⌉ := Int.ceil_pos.mpr hq
  have hfc : ⌊q⌋ ≤ ⌈q⌉ := Int.floor_le_ceil q
  have hlow : ⌊q⌋ ≤ round_aspect q key := by
    unfold round_aspect
    split
    · exact le_max_left _ _
    · exact le_trans hfc (le_max_left _ _)
  have hhigh : round_aspect q key ≤ ⌈q⌉ := by
    unfold round_aspect
    split
    · exact max_le hfc hceil
    · exact max_le le_rfl hceil
  have h1 : (⌊q⌋ : ℚ) ≤ (round_aspect q key : ℚ) := by exact_mod_cast hlow
  have h2 : ((round_aspect q key : ℤ) : ℚ) ≤ (⌈q⌉ : ℚ) := by
    exact_mod_cast hhigh
  have h3 : (⌊q⌋ : ℚ) ≤ q := Int.floor_le q
  have h4 : q ≤ (⌈q⌉ : ℚ) := Int.le_ceil q
  have h5 : (⌈q⌉ : ℚ) ≤ (⌊q⌋ : ℚ) + 1 := by
    exact_mod_cast Int.ceil_le_floor_add_one q
  rw [abs_le]
  constructor <;> linarith


/-- **C8.** `thumbnail((128, 128))` is a shrink-only bounding resize:
both output dimensions stay at most 128 and never exceed the input
dimensions; inputs already inside the 128×128 box come back unchanged;
the aspect ratio is preserved up to rounding (the cross product of input
and output dimensions differs by at most `max w h`, one rounding step of
the scaled side); and a successful normalization is re-encoded as a
`data:image/png;base64,...` string. -/
theorem claim8_thumbnail_shrink_only (w h : ℕ) (hw : 1 ≤ w) (hh : 1 ≤ h) :
    (thumbnailSize w h).1 ≤ 128 ∧
    (thumbnailSize w h).2 ≤ 128 ∧
    (thumbnailSize w h).1 ≤ w ∧
    (thumbnailSize w h).2 ≤ h ∧
    (w ≤ 128 → h ≤ 128 → thumbnailSize w h = (w, h)) ∧
    |((thumbnailSize w h).1 : ℤ) * (h : ℤ) -
        ((thumbnailSize w h).2 : ℤ) * (w : ℤ)| ≤ ((max w h : ℕ) : ℤ) ∧
    (∀ (imageOpen : List Nat → Option (Nat × Nat))
        (pngEncode : Nat × Nat → Option (List Nat))
        (s icon : String),
      normalize_icon imageOpen pngEncode s = .okIcon icon →
      ∃ payload, icon = "data:image/png;base64," ++ payload) := by
  have hpng : ∀ (imageOpen : List Nat → Option (Nat × Nat))
      (pngEncode : Nat × Nat → Option (List Nat)) (s icon : String),
      normalize_icon imageOpen pngEncode s = .okIcon icon →
      ∃ payload, icon = "data:image/png;base64," ++ payload := by
    intro imageOpen pngEncode s icon hic
    unfold normalize_icon at hic
    split at hic
    · cases hic
    · split at hic
      · cases hic
      · split at hic
        · cases hic
        · cases hic
          exact ⟨_, rfl⟩
  by_cases hsmall : 128 ≥ w ∧ 128 ≥ h
  · have hres : thumbnailSize w h = (w, h) := by
      unfold thumbnailSize
      rw [if_pos hsmall]
    refine ⟨?_, ?_, ?_, ?_, fun _ _ => hres, ?_, hpng⟩ <;>
      rw [hres]
    · exact hsmall.1
    · exact hsmall.2
    · simp [mul_comm]
  · have hh0 : (0 : ℚ) < (h : ℚ) := by exact_mod_cast (by omega : 0 < h)
    have hw0 : (0 : ℚ) < (w : ℚ) := by exact_mod_cast (by omega : 0 < w)
    by_cases hcase : (128 : ℚ) / 128 ≥ (w : ℚ) / h
    · -- tall image: w ≤ h, so 128 < h; output (round(128 * w / h), 128)
      have hwh : (w : ℚ) ≤ (h : ℚ) := by
        rw [ge_iff_le, show (128 : ℚ) / 128 = 1 by norm_num,
          div_le_one hh0] at hcase
        exact hcase
      have hwhn : w ≤ h := by exact_mod_cast hwh
      have hhbig : 128 < h := by
        rcases Nat.lt_or_ge 128 h with hlt | hge
        · exact hlt
        · exact absurd ⟨by omega, hge⟩ hsmall
      set q : ℚ := 128 * ((w : ℚ) / h) with hqdef
      have hq0 : 0 < q := by positivity
      have hqle128 : q ≤ (128 : ℚ) := by
        calc q ≤ 128 * 1 := by
              apply mul_le_mul_of_nonneg_left _ (by norm_num)
              rw [div_le_one hh0]
              exact hwh
          _ = 128 := mul_one _
      have hqlew : q ≤ (w : ℚ) := by
        rw [hqdef, ← mul_div_assoc, div_le_iff hh0]
        calc (128 : ℚ) * w ≤ (h : ℚ) * w :=
              mul_le_mul_of_nonneg_right
                (by exact_mod_cast le_of_lt hhbig) (le_of_lt hw0)
          _ = (w : ℚ) * h := mul_comm _ _
      set z : ℤ := round_aspect q (fun n => |(w : ℚ) / h - (n : ℚ) / 128|)
        with hzdef
      have hz1 : 1 ≤ z := round_aspect_pos _ _
      have hz128 : z ≤ 128 := round_aspect_le_of q _ 128 (by norm_num)
        (by exact_mod_cast hqle128)
      have hzw : z ≤ (w : ℤ) := round_aspect_le_of q _ w
        (by exact_mod_cast hw) hqlew
      have hres1 : (thumbnailSize w h).1 = z.toNat := by
        unfold thumbnailSize
        rw [if_neg hsmall, if_pos hcase]
      have hres2 : (thumbnailSize w h).2 = 128 := by
        unfold thumbnailSize
        rw [if_neg hsmall, if_pos hcase]
      have hcast : ((z.toNat : ℕ) : ℤ) = z :=
        Int.toNat_of_nonneg (by linarith)
      refine ⟨?_, ?_, ?_, ?_, ?_, ?_, hpng⟩
      · rw [hres1]
        exact Int.toNat_le.mpr hz128
      · rw [hres2]
      · rw [hres1]
        exact Int.toNat_le.mpr hzw
      · rw [hres2]
        exact le_of_lt hhbig
      · intro hw' hh'
        exact absurd ⟨hw', hh'⟩ hsmall
      · rw [hres1, hres2, hcast]
        have hqh : q * (h : ℚ) = 128 * (w : ℚ) := by
          rw [hqdef]
          field_simp
        have hnear : |(z : ℚ) - q| ≤ 1 := round_aspect_near q _ hq0
        have hrat : |(z : ℚ) * h - 128 * w| ≤ (h : ℚ) := by
          calc |(z : ℚ) * h - 128 * w| = |((z : ℚ) - q) * h| := by
                rw [sub_mul, hqh]
            _ = |(z : ℚ) - q| * |(h : ℚ)| := abs_mul _ _
            _ = |(z : ℚ) - q| * (h : ℚ) := by rw [abs_of_pos hh0]
            _ ≤ 1 * (h : ℚ) :=
                mul_le_mul_of_nonneg_right hnear (le_of_lt hh0)
            _ = (h : ℚ) := one_mul _
        have hint : |z * (h : ℤ) - 128 * (w : ℤ)| ≤ (h : ℤ) := by
          exact_mod_cast hrat
        calc |z * (h : ℤ) - ((128 : ℕ) : ℤ) * (w : ℤ)|
            = |z * (h : ℤ) - 128 * (w : ℤ)| := by norm_num
          _ ≤ (h : ℤ) := hint
          _ ≤ ((max w h : ℕ) : ℤ) := by
              rw [Nat.cast_max]
              exact le_max_right _ _
    · -- wide image: h < w, so 128 < w; output (128, round(128 * h / w))
      have hwh : (h : ℚ) < (w : ℚ) := by
        rw [ge_iff_le, show (128 : ℚ) / 128 = 1 by norm_num] at hcase
        push_neg at hcase
        exact (one_lt_div hh0).mp hcase
      have hwhn : h < w := by exact_mod_cast hwh
      have hwbig : 128 < w := by
        rcases Nat.lt_or_ge 128 w with hlt | hge
        · exact hlt
        · exact absurd ⟨hge, by omega⟩ hsmall
      set q : ℚ := 128 / ((w : ℚ) / h) with hqdef
      have hq0 : 0 < q := by positivity
      have hqeq : q = 128 * (h : ℚ) / w := by
        rw [hqdef]
        field_simp
      have hqle128 : q ≤ (128 : ℚ) := by
        rw [hqdef]
        apply div_le_self (by norm_num)
        rw [le_div_iff hh0, one_mul]
        exact le_of_lt hwh
      have hqleh : q ≤ (h : ℚ) := by
        rw [hqeq, div_le_iff hw0]
        calc (128 : ℚ) * h ≤ (w : ℚ) * h :=
              mul_le_mul_of_nonneg_right
                (by exact_mod_cast le_of_lt hwbig) (le_of_lt hh0)
          _ = (h : ℚ) * w := mul_comm _ _
      set z : ℤ := round_aspect q
        (fun n => if n = 0 then 0 else |(w : ℚ) / h - 128 / (n : ℚ)|)
        with hzdef
      have hz1 : 1 ≤ z := round_aspect_pos _ _
      have hz128 : z ≤ 128 := round_aspect_le_of q _ 128 (by norm_num)
        (by exact_mod_cast hqle128)
      have hzh : z ≤ (h : ℤ) := round_aspect_le_of q _ h
        (by exact_mod_cast hh) hqleh
      have hres1 : (thumbnailSize w h).1 = 128 := by
        unfold thumbnailSize
        rw [if_neg hsmall, if_neg hcase]
      have hres2 : (thumbnailSize w h).2 = z.toNat := by
        unfold thumbnailSize
        rw [if_neg hsmall, if_neg hcase]
      have hcast : ((z.toNat : ℕ) : ℤ) = z :=
        Int.toNat_of_nonneg (by linarith)
      refine ⟨?_, ?_, ?_, ?_, ?_, ?_, hpng⟩
      · rw [hres1]
      · rw [hres2]
        exact Int.toNat_le.mpr hz128
      · rw [hres1]
        exact le_of_lt hwbig
      · rw [hres2]
        exact Int.toNat_le.mpr hzh
      · intro hw' hh'
        exact absurd ⟨hw', hh'⟩ hsmall
      · rw [hres1, hres2, hcast]
        have hqw : q * (w : ℚ) = 128 * (h : ℚ) := by
          rw [hqeq]
          field_simp
        have hnear : |(z : ℚ) - q| ≤ 1 := round_aspect_near q _ hq0
        have hrat : |128 * (h : ℚ) - (z : ℚ) * w| ≤ (w : ℚ) := by
          calc |128 * (h : ℚ) - (z : ℚ) * w| = |(q - (z : ℚ)) * w| := by
                rw [sub_mul, hqw]
            _ = |q - (z : ℚ)| * |(w : ℚ)| := abs_mul _ _
            _ = |(z : ℚ) - q| * (w : ℚ) := by
                rw [abs_of_pos hw0, abs_sub_comm]
            _ ≤ 1 * (w : ℚ) :=
                mul_le_mul_of_nonneg_right hnear (le_of_lt hw0)
            _ = (w : ℚ) := one_mul _
        have hint : |128 * (h : ℤ) - z * (w : ℤ)| ≤ (w : ℤ) := by
          exact_mod_cast hrat
        calc |((128 : ℕ) : ℤ) * (h : ℤ) - z * (w : ℤ)|
            = |128 * (h : ℤ) - z * (w : ℤ)| := by norm_num
          _ ≤ (w : ℤ) := hint
          _ ≤ ((max w h : ℕ) : ℤ) := by
              rw [Nat.cast_max]
              exact le_max_left _ _

theorem claim8_thumbnail_shrink_only_witness :
    thumbnailSize 1000 500 = (128, 64) ∧
    (thumbnailSize 1000 500).1 ≤ 128 ∧
    (thumbnailSize 1000 500).2 ≤ 128 ∧
    thumbnailSize 50 50 = (50, 50) := by
  refine ⟨?_, ?_, ?_, ?_⟩
  · norm_num [thumbnailSize, round_aspect]
    decide
  · exact (claim8_thumbnail_shrink_only 1000 500 (by decide) (by decide)).1
  · exact (claim8_thumbnail_shrink_only 1000 500
      (by decide) (by decide)).2.1
  · exact (claim8_thumbnail_shrink_only 50 50 (by decide)
      (by decide)).2.2.2.2.1 (by decide) (by decide)

/-- **C9.** Every failure inside the `upload_icon` body — malformed
base64 (the decode returns no bytes), an unrecognized image format, or a
failing PNG re-encode — is caught by the surrounding `except` and
surfaced as the structured failure response: a `success: false` JSON body
with HTTP status 500, never an uncaught exception (`normalize_icon` is a
total function). -/
theorem claim9_normalize_icon_failures
    (imageOpen : List Nat → Option (Nat × Nat))
    (pngEncode : Nat × Nat → Option (List Nat)) (s : String)
    (hfail : pyB64Decode (extractPayload s) = none ∨
      (∃ bytes, pyB64Decode (extractPayload s) = some bytes ∧
        imageOpen bytes = none) ∨
      (∃ bytes dims, pyB64Decode (extractPayload s) = some bytes ∧
        imageOpen bytes = some dims ∧
        pngEncode (thumbnailSize dims.1 dims.2) = none)) :
    ∃ msg, normalize_icon imageOpen pngEncode s = .failure msg ∧
      httpStatus (.failure msg) = 500 ∧
      successField (.failure msg) = some false := by
  rcases hfail with hdec | ⟨bytes, hdec, hop⟩ | ⟨bytes, dims, hdec, hop, henc⟩
  · refine ⟨"Invalid base64-encoded string", ?_, rfl, rfl⟩
    simp [normalize_icon, hdec]
  · refine ⟨"cannot identify image file", ?_, rfl, rfl⟩
    simp [normalize_icon, hdec, hop]
  · refine ⟨"image save failed", ?_, rfl, rfl⟩
    simp [normalize_icon, hdec, hop, henc]

theorem claim9_normalize_icon_failures_witness :
    ∃ msg,
      normalize_icon (fun _ => none) (fun _ => none) "a" = .failure msg ∧
      httpStatus (.failure msg) = 500 ∧
      successField (.failure msg) = some false :=
  claim9_normalize_icon_failures (fun _ => none) (fun _ => none) "a"
    (Or.inl (by decide))

/-! ### Persisted state and the CRUD layer (`database.py`)

`AppState` is the whole persisted store: the `settings`, `groups` and
`services` tables plus the two `AUTOINCREMENT` counters.  (The schema
declares `ON DELETE CASCADE` on `services.group_id`, but the Python
`sqlite3` driver leaves `PRAGMA foreign_keys` off, so `delete_group`
removes only the group row.) -/

/-- The whole persisted store. -/
structure AppState where
  settings : Settings
  groups : List Group
  services : List Service
  nextGroupId : Nat
  nextServiceId : Nat
  deriving Repr, DecidableEq

/-- `Database.create_group`: insert the row, return `lastrowid`. -/
def db_create_group (name : String) (order : Int) (is_nas : Bool)
    (st : AppState) : Nat × AppState :=
  (st.nextGroupId,
   { st with
      groups := st.groups ++ [⟨st.nextGroupId, name, order, is_nas⟩],
      nextGroupId := st.nextGroupId + 1 })

/-- `Database.update_group`: update `name` and, when an order was given,
`order_num`, on the row with the given id. -/
def db_update_group (gid : Nat) (name : String) (order : Option Int)
    (st : AppState) : AppState :=
  { st with
      groups := st.groups.map (fun g =>
        if g.id == gid then
          match order with
          | some o => { g with name := name, order_num := o }
          | none => { g with name := name }
        else g) }

/-- `Database.delete_group`: `DELETE FROM groups WHERE id = ?`. -/
def db_delete_group (gid : Nat) (st : AppState) : AppState :=
  { st with groups := st.groups.filter (fun g => !(g.id == gid)) }

/-- `Database.create_service`: insert the row, return `lastrowid`. -/
def db_create_service (gid : Nat) (name urlPub urlLoc icon : String)
    (order : Int) (st : AppState) : Nat × AppState :=
  (st.nextServiceId,
   { st with
      services := st.services ++
        [⟨st.nextServiceId, gid, name, urlPub, urlLoc, icon, order⟩],
      nextServiceId := st.nextServiceId + 1 })

/-- `Database.update_service`: always update `name`; update each other
column only when a value was given. -/
def db_update_service (sid : Nat) (name : String)
    (urlPub urlLoc icon : Option String) (order : Option Int)
    (st : AppState) : AppState :=
  { st with
      services := st.services.map (fun s =>
        if s.id == sid then
          { s with
              name := name,
              url_public := urlPub.getD s.url_public,
              url_local := urlLoc.getD s.url_local,
              icon := icon.getD s.icon,
              order_num := order.getD s.order_num }
        else s) }

/-- `Database.delete_service`: `DELETE FROM services WHERE id = ?`. -/
def db_delete_service (sid : Nat) (st : AppState) : AppState :=
  { st with services := st.services.filter (fun s => !(s.id == sid)) }

/-- `ORDER BY order_num, id` comparison used by `get_all_groups`. -/
def groupBefore (a b : Group) : Prop :=
  a.order_num < b.order_num ∨ (a.order_num = b.order_num ∧ a.id < b.id)

instance (a b : Group) : Decidable (groupBefore a b) := by
  unfold groupBefore
  infer_instance

/-- Insertion step of the `ORDER BY order_num, id` sort on groups. -/
def insertGroupSorted (g : Group) : List Group → List Group
  | [] => [g]
  | x :: xs =>
    if groupBefore g x then g :: x :: xs else x :: insertGroupSorted g xs

/-- `ORDER BY order_num, id` on groups. -/
def sortGroups (gs : List Group) : List Group :=
  gs.foldr insertGroupSorted []

/-- `ORDER BY order_num, id` comparison on services. -/
def serviceBefore (a b : Service) : Prop :=
  a.order_num < b.order_num ∨ (a.order_num = b.order_num ∧ a.id < b.id)

instance (a b : Service) : Decidable (serviceBefore a b) := by
  unfold serviceBefore
  infer_instance

/-- Insertion step of the `ORDER BY order_num, id` sort on services. -/
def insertServiceSorted (s : Service) : List Service → List Service
  | [] => [s]
  | x :: xs =>
    if serviceBefore s x then s :: x :: xs else x :: insertServiceSorted s xs

/-- `ORDER BY order_num, id` on services. -/
def sortServices (ss : List Service) : List Service :=
  ss.foldr insertServiceSorted []

/-- `Database.get_all_groups`: groups in `ORDER BY order_num, id`, each
with its services in the same order. -/
def get_all_groups (st : AppState) : List (Group × List Service) :=
  (sortGroups st.groups).map (fun g =>
    (g, sortServices (st.services.filter (fun s => s.group_id == g.id))))

/-! ### Protected endpoints (`app.py`)

Every protected handler starts with the same stanza:
`token = request.headers.get("Authorization", "").replace("Bearer ", "")`
followed by `if not verify_token(token): return 401` — modelled by
`guarded`, which runs the body only when the extracted token verifies. -/

/-- The access-guard stanza shared by every protected handler. -/
def guarded (authHeader : Option String) (st : AppState)
    (body : Resp × AppState) : Resp × AppState :=
  if verify_token (extractToken authHeader) st.settings then body
  else (.unauthorized, st)

/-- `GET /api/system-info`; the psutil metrics are an input, serialized
in `info`. -/
def app_get_system_info (hdr : Option String) (info : String)
    (st : AppState) : Resp × AppState :=
  guarded hdr st (.okData info, st)

/-- `GET /api/groups`. -/
def app_get_groups (hdr : Option String) (st : AppState) :
    Resp × AppState :=
  guarded hdr st (.okGroups (get_all_groups st), st)

/-- `POST /api/groups`. -/
def app_create_group (hdr : Option String) (name : String) (order : Int)
    (is_nas : Bool) (st : AppState) : Resp × AppState :=
  guarded hdr st
    ((.okId (db_create_group name order is_nas st).1 : Resp),
      (db_create_group name order is_nas st).2)

/-- `PUT /api/groups/<group_id>`. -/
def app_update_group (hdr : Option String) (gid : Nat) (name : String)
    (order : Option Int) (st : AppState) : Resp × AppState :=
  guarded hdr st (.ok, db_update_group gid name order st)

/-- `DELETE /api/groups/<group_id>`. -/
def app_delete_group (hdr : Option String) (gid : Nat) (st : AppState) :
    Resp × AppState :=
  guarded hdr st (.ok, db_delete_group gid st)

/-- `POST /api/services`. -/
def app_create_service (hdr : Option String) (gid : Nat)
    (name urlPub urlLoc icon : String) (order : Int) (st : AppState) :
    Resp × AppState :=
  guarded hdr st
    ((.okId (db_create_service gid name urlPub urlLoc icon order st).1 :
        Resp),
      (db_create_service gid name urlPub urlLoc icon order st).2)

/-- `PUT /api/services/<service_id>`. -/
def app_update_service (hdr : Option String) (sid : Nat) (name : String)
    (urlPub urlLoc icon : Option String) (order : Option Int)
    (st : AppState) : Resp × AppState :=
  guarded hdr st (.ok, db_update_service sid name urlPub urlLoc icon order st)

/-- `DELETE /api/services/<service_id>`. -/
def app_delete_service (hdr : Option String) (sid : Nat) (st : AppState) :
    Resp × AppState :=
  guarded hdr st (.ok, db_delete_service sid st)

/-- `POST /api/fetch-icon`. -/
def app_fetch_icon (hdr : Option String)
    (parse : String → Option (String × String))
    (net : String → Option HttpResponse) (url : String) (st : AppState) :
    Resp × AppState :=
  guarded hdr st (fetch_icon_core parse net url, st)

/-- `POST /api/upload-icon`. -/
def app_upload_icon (hdr : Option String)
    (imageOpen : List Nat → Option (Nat × Nat))
    (pngEncode : Nat × Nat → Option (List Nat)) (image : String)
    (st : AppState) : Resp × AppState :=
  guarded hdr st (normalize_icon imageOpen pngEncode image, st)

/-- `GET /api/settings`: `force_network or "auto"` — Python truthiness
turns both a missing and an empty stored value into `"auto"`. -/
def app_get_settings (hdr : Option String) (st : AppState) :
    Resp × AppState :=
  guarded hdr st
    ((.okSettings (match get_setting st.settings "force_network_mode" with
        | none => "auto"
        | some v => if v = "" then "auto" else v) : Resp), st)

/-- `POST /api/settings`: store `force_network_mode` when the body
has it. -/
def app_save_settings (hdr : Option String)
    (force_network_mode : Option String) (st : AppState) :
    Resp × AppState :=
  guarded hdr st
    ((.ok : Resp), match force_network_mode with
      | some v =>
        { st with settings := set_setting st.settings "force_network_mode" v }
      | none => st)

/-- **C3.** On every protected endpoint, a request whose extracted bearer
token fails verification gets the `Unauthorized` response (status 401)
and the whole persisted state — settings, groups and services — is
returned unchanged: the guard runs before any state-mutating step, so no
partial mutation occurs. -/
theorem claim3_guard_short_circuits (hdr : Option String) (st : AppState)
    (hbad : verify_token (extractToken hdr) st.settings = false) :
    httpStatus .unauthorized = 401 ∧
    (∀ info, app_get_system_info hdr info st = (.unauthorized, st)) ∧
    app_get_groups hdr st = (.unauthorized, st) ∧
    (∀ name order is_nas,
      app_create_group hdr name order is_nas st = (.unauthorized, st)) ∧
    (∀ gid name order,
      app_update_group hdr gid name order st = (.unauthorized, st)) ∧
    (∀ gid, app_delete_group hdr gid st = (.unauthorized, st)) ∧
    (∀ gid name urlPub urlLoc icon order,
      app_create_service hdr gid name urlPub urlLoc icon order st =
        (.unauthorized, st)) ∧
    (∀ sid name urlPub urlLoc icon order,
      app_update_service hdr sid name urlPub urlLoc icon order st =
        (.unauthorized, st)) ∧
    (∀ sid, app_delete_service hdr sid st = (.unauthorized, st)) ∧
    (∀ parse net url,
      app_fetch_icon hdr parse net url st = (.unauthorized, st)) ∧
    (∀ imageOpen pngEncode image,
      app_upload_icon hdr imageOpen pngEncode image st =
        (.unauthorized, st)) ∧
    app_get_settings hdr st = (.unauthorized, st) ∧
    (∀ v, app_save_settings hdr v st = (.unauthorized, st)) := by
  have hg : ∀ body : Resp × AppState,
      guarded hdr st body = (.unauthorized, st) := by
    intro body
    unfold guarded
    rw [hbad]
    simp
  exact ⟨rfl,
    fun _ => hg _, hg _, fun _ _ _ => hg _, fun _ _ _ => hg _,
    fun _ => hg _, fun _ _ _ _ _ _ => hg _, fun _ _ _ _ _ _ => hg _,
    fun _ => hg _, fun _ _ _ => hg _, fun _ _ _ => hg _, hg _,
    fun _ => hg _⟩

theorem claim3_guard_short_circuits_witness :
    app_create_group none "media" 1 false
        (AppState.mk [] [] [] 1 1) =
      (.unauthorized, AppState.mk [] [] [] 1 1) ∧
    app_upload_icon none (fun _ => none) (fun _ => none) "x"
        (AppState.mk [] [] [] 1 1) =
      (.unauthorized, AppState.mk [] [] [] 1 1) ∧
    httpStatus .unauthorized = 401 := by
  obtain ⟨h401, -, -, hcg, -, -, -, -, -, -, hui, -, -⟩ :=
    claim3_guard_short_circuits none (AppState.mk [] [] [] 1 1) (by decide)
  exact ⟨hcg "media" 1 false, hui (fun _ => none) (fun _ => none) "x", h401⟩
